import Mathlib

/-!
Verification development for the Empire CloudFormation template builder
(`scheduler/cloudformation/template.go`).

The Go code is shallowly embedded below.  `EmpireTemplate.Build` is a pure
function from an application description to a CloudFormation document; the
only non-total behaviour in the source is the dereference `*t.HostedZone.Id`
when `t.HostedZone` is `nil`, which panics at runtime.  That panic is
modelled by the `none` / `BuildResult.panic` branch; the Go function has no
error-returning path of its own (it always returns a `nil` error).

Go maps (the per-process environment and label maps, and the `resources`
map itself) are modelled as association lists.  For the `resources` map,
`mapInsert` mirrors Go map assignment: it replaces the entry when the key is
already present, otherwise appends.  For the environment and label maps the
association list additionally records the (unspecified, run-dependent)
iteration order that `range` uses; two lists that are permutations of each
other denote the same Go map value.
-/

namespace Empire

/-- JSON-like value tree for the template document.  `Ref` maps
(`map[string]string{"Ref": id}` in the source) are modelled by the dedicated
constructor `ref`, and `Fn::GetAtt` maps by `getAtt`, so that references can
be collected structurally. -/
inductive Value where
  | str : String → Value
  | nat : Nat → Value
  | bool : Bool → Value
  | arr : List Value → Value
  | obj : List (String × Value) → Value
  | ref : String → Value
  | getAtt : String → String → Value

/-- `route53.HostedZone`: the fields `Id` and `Name` the builder reads. -/
structure HostedZone where
  id : String
  name : String
  deriving DecidableEq, Repr

/-- The exposure variant (`scheduler.HTTPExposure` / `HTTPSExposure` /
`TCPExposure`); the builder only type-asserts on `HTTPSExposure`, whose
`Cert` field it reads. -/
inductive ExposureType where
  | http : ExposureType
  | https : String → ExposureType
  | tcp : ExposureType
  deriving DecidableEq, Repr

/-- `scheduler.Exposure`: visibility flag plus variant.  (Go field `Type`
is named `etype` here because `Type` is a Lean keyword.) -/
structure Exposure where
  external : Bool
  etype : ExposureType
  deriving DecidableEq, Repr

/-- `ecs.LogConfiguration` (driver plus options map); opaque to the
builder, which passes it through. -/
structure LogConfiguration where
  logDriver : String
  options : List (String × String)
  deriving DecidableEq, Repr

/-- `scheduler.Process`.  (Go field `Type` is named `ptype` here because
`Type` is a Lean keyword; `env` and `labels` are Go maps carried with their
iteration order.) -/
structure Process where
  ptype : String
  command : List String
  image : String
  cpuShares : Nat
  memoryLimit : Nat
  instances : Nat
  env : List (String × String)
  labels : List (String × String)
  nproc : Nat
  exposure : Option Exposure
  deriving DecidableEq, Repr

/-- `scheduler.App`: name plus the ordered process list. -/
structure App where
  name : String
  processes : List Process
  deriving DecidableEq, Repr

/-- `EmpireTemplate`: the configuration supplied once at construction. -/
structure EmpireTemplate where
  cluster : String
  hostedZone : Option HostedZone
  internalSecurityGroupID : String
  externalSecurityGroupID : String
  internalSubnetIDs : List String
  externalSubnetIDs : List String
  serviceRole : String
  customResourcesTopic : String
  logConfiguration : Option LogConfiguration
  deriving DecidableEq, Repr

/-- `ContainerPort = 8080`. -/
def ContainerPort : Nat := 8080

/-- `schemeInternal = "internal"`. -/
def schemeInternal : String := "internal"

/-- `schemeExternal = "internet-facing"`. -/
def schemeExternal : String := "internet-facing"

/-- `defaultConnectionDrainingTimeout = 30`. -/
def defaultConnectionDrainingTimeout : Nat := 30

/-- `defaultCNAMETTL = 60`. -/
def defaultCNAMETTL : Nat := 60

/-- Modelled from the spec: `bytesize.MB` comes from `pkg/bytesize`, which
is not included under `src/`; the spec fixes the conversion as bytes to
whole megabytes with `104857600` bytes (100 × 2^20) mapping to `100`, so
`MB = 2^20`. -/
def bytesizeMB : Nat := 1048576

/-- The key normalizer: `regexp.MustCompile("[^a-zA-Z0-9]")` replacing every
non-alphanumeric rune with the empty string. -/
def normalizeKey (s : String) : String :=
  ⟨s.data.filter Char.isAlphanum⟩

/-- One entry of `ecs.ContainerDefinition.Environment`
(`ecs.KeyValuePair`). -/
structure KeyValuePair where
  name : String
  value : String
  deriving DecidableEq, Repr

/-- `ecs.Ulimit`. -/
structure Ulimit where
  uname : String
  softLimit : Nat
  hardLimit : Nat
  deriving DecidableEq, Repr

/-- `ecs.ContainerDefinition`, restricted to the fields the builder sets. -/
structure ContainerDefn where
  cname : String
  cpu : Nat
  command : List String
  image : String
  essential : Bool
  memory : Nat
  environment : List KeyValuePair
  logConfiguration : Option LogConfiguration
  dockerLabels : List (String × String)
  ulimits : List Ulimit
  deriving DecidableEq, Repr

/-- `EmpireTemplate.ContainerDefinition`: translate one process into an ECS
container definition (template.go, lines 262-305). -/
def EmpireTemplate.ContainerDefinition (t : EmpireTemplate) (p : Process) :
    ContainerDefn :=
  { cname := p.ptype
    cpu := p.cpuShares
    command := p.command
    image := p.image
    essential := true
    memory := p.memoryLimit / bytesizeMB
    environment := p.env.map fun kv => ⟨kv.1, kv.2⟩
    logConfiguration := t.logConfiguration
    dockerLabels := p.labels
    ulimits :=
      if p.nproc ≠ 0 then [⟨"nproc", p.nproc, p.nproc⟩] else [] }

/-- The rendering of a `KeyValuePair` in the document. -/
def kvValue (kv : KeyValuePair) : Value :=
  .obj [("Name", .str kv.name), ("Value", .str kv.value)]

/-- The rendering of an `ecs.Ulimit` in the document. -/
def ulimitValue (u : Ulimit) : Value :=
  .obj [("Name", .str u.uname), ("SoftLimit", .nat u.softLimit),
        ("HardLimit", .nat u.hardLimit)]

/-- The rendering of a label map in the document. -/
def labelsValue (ls : List (String × String)) : Value :=
  .obj (ls.map fun kv => (kv.1, .str kv.2))

/-- The rendering of an `ecs.LogConfiguration` in the document. -/
def logConfigurationValue (lc : LogConfiguration) : Value :=
  .obj [("LogDriver", .str lc.logDriver),
        ("Options", .obj (lc.options.map fun kv => (kv.1, .str kv.2)))]

/-- The `containerDefinition` map literal (template.go, lines 207-221):
the container definition rendered into the document, with the
`LogConfiguration` key present only when the configuration is non-nil. -/
def containerDefinitionValue (cd : ContainerDefn) (portMappings : List Value) :
    Value :=
  .obj ([("Name", .str cd.cname),
         ("Command", .arr (cd.command.map .str)),
         ("Cpu", .nat cd.cpu),
         ("Image", .str cd.image),
         ("Essential", .bool cd.essential),
         ("Memory", .nat cd.memory),
         ("Environment", .arr (cd.environment.map kvValue)),
         ("PortMappings", .arr portMappings),
         ("DockerLabels", labelsValue cd.dockerLabels),
         ("Ulimits", .arr (cd.ulimits.map ulimitValue))] ++
        (match cd.logConfiguration with
         | some lc => [("LogConfiguration", logConfigurationValue lc)]
         | none => []))

/-- The `Custom::InstancePort` resource (template.go, lines 108-114). -/
def instancePortResource (t : EmpireTemplate) : Value :=
  .obj [("Type", .str "Custom::InstancePort"),
        ("Version", .str "1.0"),
        ("Properties", .obj [("ServiceToken", .str t.customResourcesTopic)])]

/-- The plain HTTP listener (template.go, lines 116-128). -/
def listenerValue (instancePort : String) : Value :=
  .obj [("LoadBalancerPort", .nat 80),
        ("Protocol", .str "http"),
        ("InstancePort", .getAtt instancePort "InstancePort"),
        ("InstanceProtocol", .str "http")]

/-- The additional listener emitted for the `HTTPSExposure` variant
(template.go, lines 130-143), carrying `SSLCertificateId`. -/
def listenerValueSSL (instancePort cert : String) : Value :=
  .obj [("LoadBalancerPort", .nat 80),
        ("Protocol", .str "http"),
        ("InstancePort", .getAtt instancePort "InstancePort"),
        ("SSLCertificateId", .str cert),
        ("InstanceProtocol", .str "http")]

/-- The listener list as a function of the exposure variant: one plain
listener always, plus the certificate-bearing one exactly for the
`HTTPSExposure` variant. -/
def exposureListeners (instancePort : String) (e : Exposure) : List Value :=
  match e.etype with
  | .https cert => [listenerValue instancePort, listenerValueSSL instancePort cert]
  | _ => [listenerValue instancePort]

/-- The port mapping entry (template.go, lines 145-153). -/
def portMappingValue (instancePort : String) : Value :=
  .obj [("ContainerPort", .nat ContainerPort),
        ("HostPort", .getAtt instancePort "InstancePort")]

/-- One element of the service's `LoadBalancers` list
(template.go, lines 160-166). -/
def lbAttachment (ptype loadBalancer : String) : Value :=
  .obj [("ContainerName", .str ptype),
        ("ContainerPort", .nat ContainerPort),
        ("LoadBalancerName", .ref loadBalancer)]

/-- The `AWS::ElasticLoadBalancing::LoadBalancer` resource
(template.go, lines 167-186). -/
def loadBalancerResource (scheme sg : String) (subnets : List String)
    (listeners : List Value) (ptype : String) : Value :=
  .obj [("Type", .str "AWS::ElasticLoadBalancing::LoadBalancer"),
        ("Properties", .obj
          [("Scheme", .str scheme),
           ("SecurityGroups", .arr [.str sg]),
           ("Subnets", .arr (subnets.map .str)),
           ("Listeners", .arr listeners),
           ("CrossZone", .bool true),
           ("Tags", .arr [.obj [("Key", .str "empire.app.process"),
                                ("Value", .str ptype)]]),
           ("ConnectionDrainingPolicy", .obj
             [("Enabled", .bool true),
              ("Timeout", .nat defaultConnectionDrainingTimeout)])])]

/-- The `AWS::Route53::RecordSet` resource (template.go, lines 189-202). -/
def cnameResource (zone : HostedZone) (appName loadBalancer : String) : Value :=
  .obj [("Type", .str "AWS::Route53::RecordSet"),
        ("Properties", .obj
          [("HostedZoneId", .str zone.id),
           ("Name", .str (appName ++ "." ++ zone.name)),
           ("Type", .str "CNAME"),
           ("TTL", .nat defaultCNAMETTL),
           ("ResourceRecords", .arr [.ref loadBalancer])])]

/-- The `AWS::ECS::TaskDefinition` resource (template.go, lines 222-230). -/
def taskDefinitionResource (cd : ContainerDefn) (portMappings : List Value) :
    Value :=
  .obj [("Type", .str "AWS::ECS::TaskDefinition"),
        ("Properties", .obj
          [("ContainerDefinitions", .arr [containerDefinitionValue cd portMappings]),
           ("Volumes", .arr [])])]

/-- The `AWS::ECS::Service` resource (template.go, lines 232-250); the
`Role` property is added exactly when the load-balancer list is
non-empty, and `Metadata` carries the pre-normalization process type
(`serviceMetadata`). -/
def serviceResource (t : EmpireTemplate) (p : Process) (taskDefinition : String)
    (loadBalancers : List Value) : Value :=
  .obj [("Type", .str "AWS::ECS::Service"),
        ("Metadata", .obj [("Name", .str p.ptype)]),
        ("Properties", .obj
          ([("Cluster", .str t.cluster),
            ("DesiredCount", .nat p.instances),
            ("LoadBalancers", .arr loadBalancers),
            ("TaskDefinition", .ref taskDefinition)] ++
           (if loadBalancers.length > 0
            then [("Role", .str t.serviceRole)] else [])))]

/-- Go map assignment `m[k] = v`: replace the entry when the key is
present, otherwise append. -/
def mapInsert (m : List (String × Value)) (k : String) (v : Value) :
    List (String × Value) :=
  if k ∈ m.map Prod.fst then
    m.map fun kv => if kv.1 = k then (k, v) else kv
  else m ++ [(k, v)]

/-- One iteration of the `for _, p := range app.Processes` loop
(template.go, lines 85-252), threading the `resources` map; `none` models
the nil-pointer panic at `*t.HostedZone.Id` (line 192) when the hosted
zone was not configured. -/
def buildProcess (t : EmpireTemplate) (app : App)
    (resources : List (String × Value)) (p : Process) :
    Option (List (String × Value)) :=
  let cd := t.ContainerDefinition p
  let key := normalizeKey p.ptype
  let step : Option (List (String × Value) × List Value × List Value × ContainerDefn) :=
    match p.exposure with
    | none => some (resources, [], [], cd)
    | some e =>
      let scheme := if e.external then schemeExternal else schemeInternal
      let sg := if e.external then t.externalSecurityGroupID
                else t.internalSecurityGroupID
      let subnets := if e.external then t.externalSubnetIDs
                     else t.internalSubnetIDs
      let instancePort := key ++ toString ContainerPort ++ "InstancePort"
      let resources := mapInsert resources instancePort (instancePortResource t)
      let listeners := exposureListeners instancePort e
      let portMappings := [portMappingValue instancePort]
      let cd := { cd with
        environment := cd.environment ++ [⟨"PORT", toString ContainerPort⟩] }
      let loadBalancer := key ++ "LoadBalancer"
      let loadBalancers := [lbAttachment p.ptype loadBalancer]
      let resources := mapInsert resources loadBalancer
        (loadBalancerResource scheme sg subnets listeners p.ptype)
      if p.ptype = "web" then
        match t.hostedZone with
        | none => none
        | some z =>
          some (mapInsert resources "CNAME" (cnameResource z app.name loadBalancer),
                portMappings, loadBalancers, cd)
      else
        some (resources, portMappings, loadBalancers, cd)
  match step with
  | none => none
  | some (resources, portMappings, loadBalancers, cd) =>
    let taskDefinition := key ++ "TaskDefinition"
    let resources := mapInsert resources taskDefinition
      (taskDefinitionResource cd portMappings)
    some (mapInsert resources key (serviceResource t p taskDefinition loadBalancers))

/-- The loop over `app.Processes`, accumulating the `resources` map. -/
def buildFold (t : EmpireTemplate) (app : App) :
    List (String × Value) → List Process → Option (List (String × Value))
  | res, [] => some res
  | res, p :: ps =>
    match buildProcess t app res p with
    | none => none
    | some res' => buildFold t app res' ps

/-- The three top-level mappings of the returned document
(template.go, lines 254-258). -/
structure ResourceDoc where
  parameters : List (String × Value)
  resources : List (String × Value)
  outputs : List (String × Value)

/-- Outcome of `Build`: a document, or the nil-pointer panic (the Go
function's `error` result is always `nil`; it has no typed failure path). -/
inductive BuildResult where
  | ok : ResourceDoc → BuildResult
  | panic : BuildResult

/-- `EmpireTemplate.Build` (template.go, lines 80-259). -/
def EmpireTemplate.Build (t : EmpireTemplate) (app : App) : BuildResult :=
  match buildFold t app [] app.processes with
  | none => .panic
  | some res => .ok { parameters := [], resources := res, outputs := [] }

/-- Whether a build produced a document. -/
def BuildResult.isOk : BuildResult → Bool
  | .ok _ => true
  | .panic => false

/-- The document of a successful build (empty document for a panic); used
to state concrete observations. -/
def BuildResult.doc : BuildResult → ResourceDoc
  | .ok d => d
  | .panic => ⟨[], [], []⟩

/-- First-match lookup in an association-list map. -/
def lookupField : List (String × Value) → String → Option Value
  | [], _ => none
  | kv :: rest, k => if kv.1 = k then some kv.2 else lookupField rest k

/-- Field access on an object value. -/
def Value.getField : Value → String → Option Value
  | .obj fs, k => lookupField fs k
  | _, _ => none

/-- The `Type` string of a resource value. -/
def Value.resourceType (v : Value) : Option String :=
  match v.getField "Type" with
  | some (.str s) => some s
  | _ => none

/-- Access a key inside a resource's `Properties` object. -/
def getProp (v : Value) (k : String) : Option Value :=
  (v.getField "Properties").bind fun pr => pr.getField k

/-- Whether a resource value is a DNS record (`AWS::Route53::RecordSet`). -/
def isRecordSet (v : Value) : Bool :=
  decide (v.resourceType = some "AWS::Route53::RecordSet")

/-- Number of DNS-record resources in a resources mapping. -/
def recordSetCount (m : List (String × Value)) : Nat :=
  (m.filter fun kv => isRecordSet kv.2).length

/-- The logical ids of a resources mapping. -/
def resKeys (m : List (String × Value)) : List String := m.map Prod.fst

mutual

/-- Every logical id referenced from a value, via direct `Ref` or
`Fn::GetAtt` attribute lookup, anywhere in the tree. -/
def Value.refs : Value → List String
  | .str _ => []
  | .nat _ => []
  | .bool _ => []
  | .arr vs => refsArr vs
  | .obj fs => refsObj fs
  | .ref target => [target]
  | .getAtt target _ => [target]

/-- References of a list of values. -/
def refsArr : List Value → List String
  | [] => []
  | v :: vs => v.refs ++ refsArr vs

/-- References of an object's field list. -/
def refsObj : List (String × Value) → List String
  | [] => []
  | kv :: fs => kv.2.refs ++ refsObj fs

end

/-- All references embedded in the values of a resources mapping. -/
def resRefs : List (String × Value) → List String
  | [] => []
  | kv :: rest => kv.2.refs ++ resRefs rest

/-- Whether every embedded reference of the mapping names one of its own
logical ids. -/
def refsResolve (m : List (String × Value)) : Bool :=
  decide (∀ r ∈ resRefs m, r ∈ resKeys m)

/-! Concrete fixtures used by witnesses and counterexamples. -/

/-- A hosted zone as in the repository's tests: id `FAKEZONE`,
name `empire.`. -/
def zoneEmpire : HostedZone := ⟨"FAKEZONE", "empire."⟩

/-- A fully configured template with a hosted zone. -/
def tZone : EmpireTemplate :=
  { cluster := "cluster"
    hostedZone := some zoneEmpire
    internalSecurityGroupID := "sg-int"
    externalSecurityGroupID := "sg-ext"
    internalSubnetIDs := ["subnet-int"]
    externalSubnetIDs := ["subnet-ext"]
    serviceRole := "ecsServiceRole"
    customResourcesTopic := "topic-arn"
    logConfiguration := none }

/-- The same template with no hosted zone configured. -/
def tNoZone : EmpireTemplate := { tZone with hostedZone := none }

/-- An exposed primary process named `web` (plain HTTP exposure). -/
def webHTTP : Process :=
  { ptype := "web"
    command := ["./bin/web"]
    image := "remind101/acme-inc"
    cpuShares := 256
    memoryLimit := 134217728
    instances := 1
    env := []
    labels := []
    nproc := 0
    exposure := some ⟨true, .http⟩ }

/-- The application `acme-inc` with the single exposed `web` process. -/
def appWeb : App := ⟨"acme-inc", [webHTTP]⟩

example : normalizeKey "worker-1" = "worker1" := rfl

example : tNoZone.Build appWeb = .panic := rfl

example : (tZone.Build appWeb).isOk = true := rfl

example : recordSetCount (tZone.Build appWeb).doc.resources = 1 := rfl

example : refsResolve (tZone.Build appWeb).doc.resources = true := by decide

/-! Infrastructure lemmas about `mapInsert`, keys and references. -/

theorem resKeys_mapInsert (m : List (String × Value)) (k : String) (v : Value) :
    resKeys (mapInsert m k v) =
      if k ∈ resKeys m then resKeys m else resKeys m ++ [k] := by
  simp only [mapInsert, resKeys]
  split
  · rw [List.map_map]
    refine (List.map_congr_left ?_).trans rfl
    intro kv _
    by_cases h : kv.1 = k
    · simp [h]
    · simp [h]
  · simp

theorem mem_resKeys_mapInsert_self (m : List (String × Value)) (k : String)
    (v : Value) : k ∈ resKeys (mapInsert m k v) := by
  rw [resKeys_mapInsert]
  split
  · assumption
  · simp

theorem mem_resKeys_mapInsert_of_mem {m : List (String × Value)} {a : String}
    (k : String) (v : Value) (h : a ∈ resKeys m) :
    a ∈ resKeys (mapInsert m k v) := by
  rw [resKeys_mapInsert]
  split
  · exact h
  · exact List.mem_append_left _ h

theorem nodup_resKeys_mapInsert {m : List (String × Value)} (k : String)
    (v : Value) (h : (resKeys m).Nodup) : (resKeys (mapInsert m k v)).Nodup := by
  rw [resKeys_mapInsert]
  split
  · exact h
  · next hk => simp [List.nodup_append, h, hk]

theorem lookupField_cons (kv : String × Value) (m : List (String × Value))
    (k : String) :
    lookupField (kv :: m) k =
      if kv.1 = k then some kv.2 else lookupField m k := rfl

theorem lookupField_append_self {m : List (String × Value)} {k : String}
    (v : Value) (h : k ∉ resKeys m) :
    lookupField (m ++ [(k, v)]) k = some v := by
  induction m with
  | nil => simp [lookupField]
  | cons kv rest ih =>
    have h1 : kv.1 ≠ k := by
      intro hh
      exact h (by simp [resKeys, hh])
    have h2 : k ∉ resKeys rest := by
      intro hh
      refine h ?_
      simp only [resKeys, List.map_cons, List.mem_cons]
      exact Or.inr hh
    rw [List.cons_append, lookupField_cons, if_neg h1]
    exact ih h2

theorem lookupField_replace_self {m : List (String × Value)} {k : String}
    (v : Value) (h : k ∈ resKeys m) :
    lookupField (m.map fun kv => if kv.1 = k then (k, v) else kv) k = some v := by
  induction m with
  | nil => simp [resKeys] at h
  | cons kv rest ih =>
    by_cases hk : kv.1 = k
    · rw [List.map_cons, if_pos hk, lookupField_cons, if_pos rfl]
    · have h2 : k ∈ resKeys rest := by
        simp only [resKeys, List.map_cons, List.mem_cons] at h
        rcases h with h | h
        · exact absurd h.symm hk
        · exact h
      rw [List.map_cons, if_neg hk, lookupField_cons, if_neg hk]
      exact ih h2

theorem lookupField_mapInsert_self (m : List (String × Value)) (k : String)
    (v : Value) : lookupField (mapInsert m k v) k = some v := by
  unfold mapInsert
  split
  · exact lookupField_replace_self v (by assumption)
  · exact lookupField_append_self v (by assumption)

theorem lookupField_replace_ne (m : List (String × Value)) {a k : String}
    (v : Value) (h : a ≠ k) :
    lookupField (m.map fun kv => if kv.1 = k then (k, v) else kv) a =
      lookupField m a := by
  induction m with
  | nil => rfl
  | cons kv rest ih =>
    by_cases hk : kv.1 = k
    · rw [List.map_cons, if_pos hk, lookupField_cons, lookupField_cons,
        if_neg (show ¬((k, v).1 = a) from fun hh => h hh.symm),
        if_neg (show ¬(kv.1 = a) from fun hh => h (hk ▸ hh).symm)]
      exact ih
    · rw [List.map_cons, if_neg hk, lookupField_cons, lookupField_cons]
      split
      · rfl
      · exact ih

theorem lookupField_append_ne (m : List (String × Value)) {a k : String}
    (v : Value) (h : a ≠ k) :
    lookupField (m ++ [(k, v)]) a = lookupField m a := by
  induction m with
  | nil =>
    show (if k = a then some v else lookupField [] a) = lookupField [] a
    rw [if_neg (Ne.symm h)]
  | cons kv rest ih =>
    rw [List.cons_append, lookupField_cons, lookupField_cons]
    split
    · rfl
    · exact ih

theorem lookupField_mapInsert_ne (m : List (String × Value)) {a k : String}
    (v : Value) (h : a ≠ k) :
    lookupField (mapInsert m k v) a = lookupField m a := by
  unfold mapInsert
  split
  · exact lookupField_replace_ne m v h
  · exact lookupField_append_ne m v h

theorem resRefs_cons (kv : String × Value) (m : List (String × Value)) :
    resRefs (kv :: m) = kv.2.refs ++ resRefs m := rfl

theorem resRefs_append (a b : List (String × Value)) :
    resRefs (a ++ b) = resRefs a ++ resRefs b := by
  induction a with
  | nil => rfl
  | cons kv rest ih => simp [resRefs_cons, ih]

theorem mem_resRefs_replace {m : List (String × Value)} {k x : String}
    {v : Value}
    (h : x ∈ resRefs (m.map fun kv => if kv.1 = k then (k, v) else kv)) :
    x ∈ resRefs m ∨ x ∈ v.refs := by
  induction m with
  | nil => simp [resRefs] at h
  | cons kv rest ih =>
    rw [List.map_cons, resRefs_cons] at h
    rcases List.mem_append.mp h with h | h
    · by_cases hk : kv.1 = k
      · rw [if_pos hk] at h
        exact Or.inr h
      · rw [if_neg hk] at h
        exact Or.inl (by rw [resRefs_cons]; exact List.mem_append_left _ h)
    · rcases ih h with h | h
      · exact Or.inl (by rw [resRefs_cons]; exact List.mem_append_right _ h)
      · exact Or.inr h

theorem mem_resRefs_mapInsert {m : List (String × Value)} {k x : String}
    {v : Value} (h : x ∈ resRefs (mapInsert m k v)) :
    x ∈ resRefs m ∨ x ∈ v.refs := by
  unfold mapInsert at h
  split at h
  · exact mem_resRefs_replace h
  · rw [resRefs_append] at h
    rcases List.mem_append.mp h with h | h
    · exact Or.inl h
    · rw [resRefs_cons] at h
      simp only [resRefs, List.append_nil] at h
      exact Or.inr h

/-! String-key disequality helpers. -/

theorem key_append_right_ne (s : String) {a b : String} (h : a ≠ b) :
    s ++ a ≠ s ++ b := by
  intro hc
  apply h
  have hd := congrArg String.data hc
  simp only [String.data_append] at hd
  exact congrArg String.mk (List.append_cancel_left hd)

theorem key_length_append (s t : String) :
    (s ++ t).length = s.length + t.length := by
  cases s with
  | mk d1 =>
    cases t with
    | mk d2 =>
      show (String.mk (d1 ++ d2)).length = d1.length + d2.length
      simp [String.length]

theorem key_append_ne_of_length {s a c : String} (h : c.length < a.length) :
    s ++ a ≠ c := by
  intro hc
  have := congrArg String.length hc
  rw [key_length_append] at this
  omega

theorem key_append_ne_self (s : String) {a : String} (h : 0 < a.length) :
    s ++ a ≠ s := by
  intro hc
  have := congrArg String.length hc
  rw [key_length_append] at this
  omega

/-! Reference computation for each resource constructor. -/

theorem refsArr_map_str (l : List String) : refsArr (l.map .str) = [] := by
  induction l with
  | nil => rfl
  | cons a l ih => simp [refsArr, Value.refs, ih]

theorem refsArr_map_kvValue (l : List KeyValuePair) :
    refsArr (l.map kvValue) = [] := by
  induction l with
  | nil => rfl
  | cons a l ih => simp [refsArr, kvValue, Value.refs, refsObj, ih]

theorem refsArr_map_ulimitValue (l : List Ulimit) :
    refsArr (l.map ulimitValue) = [] := by
  induction l with
  | nil => rfl
  | cons a l ih => simp [refsArr, ulimitValue, Value.refs, refsObj, ih]

theorem refsObj_map_str (l : List (String × String)) :
    refsObj (l.map fun kv => (kv.1, Value.str kv.2)) = [] := by
  induction l with
  | nil => rfl
  | cons a l ih => simp [refsObj, Value.refs, ih]

theorem refsObj_append (a b : List (String × Value)) :
    refsObj (a ++ b) = refsObj a ++ refsObj b := by
  induction a with
  | nil => rfl
  | cons kv rest ih => simp [refsObj, ih]

theorem refs_instancePortResource (t : EmpireTemplate) :
    (instancePortResource t).refs = [] := rfl

theorem refs_portMappingValue (ip : String) :
    (portMappingValue ip).refs = [ip] := rfl

theorem refs_lbAttachment (pt lb : String) :
    (lbAttachment pt lb).refs = [lb] := rfl

theorem refs_cnameResource (z : HostedZone) (n lb : String) :
    (cnameResource z n lb).refs = [lb] := rfl

theorem refs_loadBalancerResource (sch sg : String) (subs : List String)
    (ls : List Value) (pt : String) :
    (loadBalancerResource sch sg subs ls pt).refs = refsArr ls := by
  simp [loadBalancerResource, Value.refs, refsObj, refsArr, refsArr_map_str]

theorem refs_exposureListeners (ip : String) (e : Exposure) :
    refsArr (exposureListeners ip e) = [ip] ∨
    refsArr (exposureListeners ip e) = [ip, ip] := by
  unfold exposureListeners
  cases e.etype with
  | http => left; rfl
  | https cert => right; rfl
  | tcp => left; rfl

theorem refs_containerDefinitionValue (cd : ContainerDefn) (pm : List Value) :
    (containerDefinitionValue cd pm).refs = refsArr pm := by
  cases h : cd.logConfiguration with
  | none =>
    simp [containerDefinitionValue, h, Value.refs, refsObj, refsObj_append,
      refsArr_map_str, refsArr_map_kvValue, refsArr_map_ulimitValue,
      labelsValue, refsObj_map_str]
  | some lc =>
    simp [containerDefinitionValue, h, Value.refs, refsObj, refsObj_append,
      refsArr_map_str, refsArr_map_kvValue, refsArr_map_ulimitValue,
      labelsValue, refsObj_map_str, logConfigurationValue]

theorem value_refs_obj (fs : List (String × Value)) :
    Value.refs (.obj fs) = refsObj fs := rfl

theorem value_refs_arr (vs : List Value) :
    Value.refs (.arr vs) = refsArr vs := rfl

theorem value_refs_str (s : String) : Value.refs (.str s) = [] := rfl

theorem refsObj_cons (kv : String × Value) (fs : List (String × Value)) :
    refsObj (kv :: fs) = kv.2.refs ++ refsObj fs := rfl

theorem refsArr_cons (v : Value) (vs : List Value) :
    refsArr (v :: vs) = v.refs ++ refsArr vs := rfl

theorem refs_taskDefinitionResource (cd : ContainerDefn) (pm : List Value) :
    (taskDefinitionResource cd pm).refs = refsArr pm := by
  simp only [taskDefinitionResource, value_refs_obj, refsObj_cons,
    value_refs_str, value_refs_arr, refsArr_cons,
    refs_containerDefinitionValue, refsObj, refsArr,
    List.append_nil, List.nil_append]

theorem refs_serviceResource (t : EmpireTemplate) (p : Process) (td : String)
    (lbs : List Value) :
    (serviceResource t p td lbs).refs = refsArr lbs ++ [td] := by
  unfold serviceResource
  split
  · simp [Value.refs, refsObj, refsObj_append, refsArr]
  · simp [Value.refs, refsObj, refsObj_append, refsArr]

/-! Totality of the build except for the missing-zone dereference. -/

theorem buildProcess_isSome (t : EmpireTemplate) (app : App)
    (res : List (String × Value)) (p : Process)
    (h : p.ptype = "web" → p.exposure.isSome = true →
      t.hostedZone.isSome = true) :
    (buildProcess t app res p).isSome = true := by
  unfold buildProcess
  cases hexp : p.exposure with
  | none => simp
  | some e =>
    by_cases hw : p.ptype = "web"
    · have hz := h hw (by rw [hexp]; rfl)
      cases hzz : t.hostedZone with
      | none => rw [hzz] at hz; simp at hz
      | some z => simp [hw, hzz]
    · simp [hw]

theorem buildFold_isSome (t : EmpireTemplate) (app : App) (ps : List Process) :
    ∀ res : List (String × Value),
      (∀ p ∈ ps, p.ptype = "web" → p.exposure.isSome = true →
        t.hostedZone.isSome = true) →
      (buildFold t app res ps).isSome = true := by
  induction ps with
  | nil => intro res _; rfl
  | cons p ps ih =>
    intro res h
    simp only [buildFold]
    cases hb : buildProcess t app res p with
    | none =>
      have h1 := buildProcess_isSome t app res p (h p (List.mem_cons_self p ps))
      rw [hb] at h1
      simp at h1
    | some res' =>
      exact ih res' fun q hq => h q (List.mem_cons_of_mem _ hq)

/-! Fixtures for the collision claims. -/

/-- An unexposed process whose type normalizes to `worker1`. -/
def workerDash : Process :=
  { ptype := "worker-1"
    command := ["./bin/worker"]
    image := "remind101/acme-inc"
    cpuShares := 128
    memoryLimit := 1048576
    instances := 1
    env := []
    labels := []
    nproc := 0
    exposure := none }

/-- A distinct unexposed process whose type also normalizes to `worker1`. -/
def workerDot : Process := { workerDash with ptype := "worker.1", instances := 2 }

/-- An application with two distinct processes that collide on the
normalized logical id `worker1`. -/
def appCollide : App := ⟨"acme-inc", [workerDash, workerDot]⟩

/-- C1 (code_bug): on an application whose primary process `web` is exposed
while no hosted zone was configured, `Build` does not fail with an
explicit, typed, descriptive error: it hits the nil-pointer dereference
`*t.HostedZone.Id` and crashes with a null-value fault (modelled as
`BuildResult.panic`), the exact behaviour the spec rules out. -/
theorem C1_missing_zone_is_a_null_fault : tNoZone.Build appWeb = .panic := rfl

/-- C2 counterexample: `worker-1` and `worker.1` are distinct processes
normalizing to the same logical id `worker1`, yet `Build` succeeds (it does
not detect the collision and fail); the shared key holds the second
process's service resource. -/
theorem C2_counterexample_silent_overwrite :
    normalizeKey "worker-1" = "worker1" ∧
    normalizeKey "worker.1" = "worker1" ∧
    workerDash ≠ workerDot ∧
    (tZone.Build appCollide).isOk = true ∧
    lookupField (tZone.Build appCollide).doc.resources "worker1" =
      some (serviceResource tZone workerDot "worker1TaskDefinition" []) :=
  ⟨rfl, rfl, by decide, rfl, rfl⟩

/-- C2 (amended): `Build` performs no logical-id collision detection: it
never fails because of a collision (the only failure is the missing-zone
dereference), and when two distinct processes normalize to the same
logical id the later process's resources silently overwrite the earlier
one's, as the `worker-1` / `worker.1` application shows: the shared
service key carries the second process's desired count. -/
theorem C2_collisions_are_silently_overwritten :
    (∀ (t : EmpireTemplate) (app : App),
      (t.hostedZone.isSome = true ∨
        ∀ p ∈ app.processes, ¬(p.ptype = "web" ∧ p.exposure.isSome = true)) →
      (t.Build app).isOk = true) ∧
    ((lookupField (tZone.Build appCollide).doc.resources "worker1").bind
      fun v => getProp v "DesiredCount") = some (.nat workerDot.instances) ∧
    workerDash.instances ≠ workerDot.instances := by
  refine ⟨?_, rfl, by decide⟩
  intro t app h
  unfold EmpireTemplate.Build
  have hsome : (buildFold t app [] app.processes).isSome = true := by
    apply buildFold_isSome
    intro p hp hw he
    rcases h with h | h
    · exact h
    · exact absurd ⟨hw, he⟩ (h p hp)
  cases hb : buildFold t app [] app.processes with
  | none => rw [hb] at hsome; simp at hsome
  | some res => rfl

/-- Witness for the amended C2 theorem at the colliding application. -/
theorem C2_collisions_witness : (tZone.Build appCollide).isOk = true :=
  C2_collisions_are_silently_overwritten.1 tZone appCollide (Or.inl rfl)

/-- C8: the task memory value is the process's memory limit in bytes
integer-divided by 2^20, truncating the remainder; 104857600 bytes yield
100 and 104857601 bytes also yield 100. -/
theorem C8_memory_is_truncating_mib_division (t : EmpireTemplate) (p : Process) :
    (t.ContainerDefinition p).memory = p.memoryLimit / 2 ^ 20 ∧
    (t.ContainerDefinition { p with memoryLimit := 104857600 }).memory = 100 ∧
    (t.ContainerDefinition { p with memoryLimit := 104857601 }).memory = 100 :=
  ⟨rfl, by norm_num [EmpireTemplate.ContainerDefinition, bytesizeMB],
    by norm_num [EmpireTemplate.ContainerDefinition, bytesizeMB]⟩

/-- C10: every document `Build` returns has empty `Parameters` and empty
`Outputs`; no component ever contributes to either mapping. -/
theorem C10_parameters_and_outputs_empty (t : EmpireTemplate) (app : App)
    (doc : ResourceDoc) (h : t.Build app = .ok doc) :
    doc.parameters = [] ∧ doc.outputs = [] := by
  unfold EmpireTemplate.Build at h
  split at h
  · cases h
  · cases h
    exact ⟨rfl, rfl⟩

/-- Witness for C10 at a concrete exposed application. -/
theorem C10_witness :
    (tZone.Build appWeb).doc.parameters = [] ∧
    (tZone.Build appWeb).doc.outputs = [] :=
  C10_parameters_and_outputs_empty tZone appWeb (tZone.Build appWeb).doc rfl

/-! Derived anatomy of one loop iteration.  These definitions name the
intermediate values `buildProcess` constructs; the shape lemmas below prove
that `buildProcess` equals their composition in each of its cases. -/

/-- The container definition after the exposure block appended the `PORT`
environment entry. -/
def exposedCd (t : EmpireTemplate) (p : Process) : ContainerDefn :=
  { t.ContainerDefinition p with
    environment := (t.ContainerDefinition p).environment ++
      [⟨"PORT", toString ContainerPort⟩] }

/-- The load-balancer scheme chosen by visibility. -/
def exposedScheme (e : Exposure) : String :=
  if e.external then schemeExternal else schemeInternal

/-- The security group chosen by visibility. -/
def exposedSG (t : EmpireTemplate) (e : Exposure) : String :=
  if e.external then t.externalSecurityGroupID else t.internalSecurityGroupID

/-- The subnet list chosen by visibility. -/
def exposedSubnets (t : EmpireTemplate) (e : Exposure) : List String :=
  if e.external then t.externalSubnetIDs else t.internalSubnetIDs

/-- The deferred-port resource's logical id for a process. -/
def ipKey (p : Process) : String :=
  normalizeKey p.ptype ++ toString ContainerPort ++ "InstancePort"

/-- The load balancer's logical id for a process. -/
def lbKey (p : Process) : String := normalizeKey p.ptype ++ "LoadBalancer"

/-- The task definition's logical id for a process. -/
def tdKey (p : Process) : String := normalizeKey p.ptype ++ "TaskDefinition"

/-- The service's logical id for a process. -/
def svcKey (p : Process) : String := normalizeKey p.ptype

/-- The load-balancer resource emitted for an exposed process. -/
def exposedLBValue (t : EmpireTemplate) (p : Process) (e : Exposure) : Value :=
  loadBalancerResource (exposedScheme e) (exposedSG t e) (exposedSubnets t e)
    (exposureListeners (ipKey p) e) p.ptype

/-- The resources added by the exposure block: the deferred-port resource
and the load balancer. -/
def exposedResources (t : EmpireTemplate) (res : List (String × Value))
    (p : Process) (e : Exposure) : List (String × Value) :=
  mapInsert (mapInsert res (ipKey p) (instancePortResource t)) (lbKey p)
    (exposedLBValue t p e)

/-- The unconditional tail of the loop body: insert the task definition
and the service. -/
def finishProcess (t : EmpireTemplate) (res : List (String × Value))
    (p : Process) (pm lbs : List Value) (cd : ContainerDefn) :
    List (String × Value) :=
  mapInsert (mapInsert res (tdKey p) (taskDefinitionResource cd pm)) (svcKey p)
    (serviceResource t p (tdKey p) lbs)

theorem buildProcess_unexposed (t : EmpireTemplate) (app : App)
    (res : List (String × Value)) (p : Process) (h : p.exposure = none) :
    buildProcess t app res p =
      some (finishProcess t res p [] [] (t.ContainerDefinition p)) := by
  unfold buildProcess finishProcess tdKey svcKey
  rw [h]

theorem buildProcess_exposed_nonweb (t : EmpireTemplate) (app : App)
    (res : List (String × Value)) (p : Process) (e : Exposure)
    (hexp : p.exposure = some e) (hw : p.ptype ≠ "web") :
    buildProcess t app res p =
      some (finishProcess t (exposedResources t res p e) p
        [portMappingValue (ipKey p)] [lbAttachment p.ptype (lbKey p)]
        (exposedCd t p)) := by
  unfold buildProcess finishProcess exposedResources exposedLBValue exposedCd
    exposedScheme exposedSG exposedSubnets ipKey lbKey tdKey svcKey
  rw [hexp]
  simp [hw]

theorem buildProcess_web_nozone (t : EmpireTemplate) (app : App)
    (res : List (String × Value)) (p : Process) (e : Exposure)
    (hexp : p.exposure = some e) (hw : p.ptype = "web")
    (hz : t.hostedZone = none) :
    buildProcess t app res p = none := by
  unfold buildProcess
  rw [hexp]
  simp [hw, hz]

theorem buildProcess_web_zone (t : EmpireTemplate) (app : App)
    (res : List (String × Value)) (p : Process) (e : Exposure) (z : HostedZone)
    (hexp : p.exposure = some e) (hw : p.ptype = "web")
    (hz : t.hostedZone = some z) :
    buildProcess t app res p =
      some (finishProcess t
        (mapInsert (exposedResources t res p e) "CNAME"
          (cnameResource z app.name (lbKey p)))
        p [portMappingValue (ipKey p)] [lbAttachment p.ptype (lbKey p)]
        (exposedCd t p)) := by
  unfold buildProcess finishProcess exposedResources exposedLBValue exposedCd
    exposedScheme exposedSG exposedSubnets ipKey lbKey tdKey svcKey
  rw [hexp]
  simp [hw, hz]

/-! Disequalities between the logical ids of one process. -/

theorem key_append_assoc (a b c : String) : a ++ b ++ c = a ++ (b ++ c) := by
  cases a with
  | mk d1 =>
    cases b with
    | mk d2 =>
      cases c with
      | mk d3 =>
        show String.mk (d1 ++ d2 ++ d3) = String.mk (d1 ++ (d2 ++ d3))
        rw [List.append_assoc]

theorem ipKey_eq (p : Process) :
    ipKey p = normalizeKey p.ptype ++ "8080InstancePort" := by
  unfold ipKey
  rw [key_append_assoc]
  exact congrArg _ (by decide)

theorem ipKey_ne_lbKey (p : Process) : ipKey p ≠ lbKey p := by
  rw [ipKey_eq]
  exact key_append_right_ne _ (by decide)

theorem ipKey_ne_tdKey (p : Process) : ipKey p ≠ tdKey p := by
  rw [ipKey_eq]
  exact key_append_right_ne _ (by decide)

theorem ipKey_ne_svcKey (p : Process) : ipKey p ≠ svcKey p := by
  rw [ipKey_eq]
  exact key_append_ne_self _ (by decide)

theorem ipKey_ne_cname (p : Process) : ipKey p ≠ "CNAME" := by
  rw [ipKey_eq]
  exact key_append_ne_of_length (by decide)

theorem lbKey_ne_tdKey (p : Process) : lbKey p ≠ tdKey p :=
  key_append_right_ne _ (by decide)

theorem lbKey_ne_svcKey (p : Process) : lbKey p ≠ svcKey p :=
  key_append_ne_self _ (by decide)

theorem lbKey_ne_cname (p : Process) : lbKey p ≠ "CNAME" :=
  key_append_ne_of_length (by decide)

theorem tdKey_ne_svcKey (p : Process) : tdKey p ≠ svcKey p :=
  key_append_ne_self _ (by decide)

theorem tdKey_ne_cname (p : Process) : tdKey p ≠ "CNAME" :=
  key_append_ne_of_length (by decide)

/-- C7: a process with no declared exposure contributes exactly its task
definition and its service: the loop iteration adds nothing at the
load-balancer or deferred-port logical ids, both added resources are of
task-definition/service type (so no load balancer, listener or
deferred-port resource is attributable to the process), and the service's
`LoadBalancers` attachment list is empty. -/
theorem C7_no_exposure_no_network_resources (t : EmpireTemplate) (app : App)
    (res : List (String × Value)) (p : Process) (h : p.exposure = none) :
    buildProcess t app res p =
      some (finishProcess t res p [] [] (t.ContainerDefinition p)) ∧
    lookupField (finishProcess t res p [] [] (t.ContainerDefinition p))
      (lbKey p) = lookupField res (lbKey p) ∧
    lookupField (finishProcess t res p [] [] (t.ContainerDefinition p))
      (ipKey p) = lookupField res (ipKey p) ∧
    lookupField (finishProcess t res p [] [] (t.ContainerDefinition p))
      (svcKey p) = some (serviceResource t p (tdKey p) []) ∧
    getProp (serviceResource t p (tdKey p) []) "LoadBalancers" =
      some (.arr []) ∧
    (taskDefinitionResource (t.ContainerDefinition p) []).resourceType =
      some "AWS::ECS::TaskDefinition" ∧
    (serviceResource t p (tdKey p) []).resourceType =
      some "AWS::ECS::Service" := by
  refine ⟨buildProcess_unexposed t app res p h, ?_, ?_, ?_, rfl, rfl, rfl⟩
  · unfold finishProcess
    rw [lookupField_mapInsert_ne _ _ (lbKey_ne_svcKey p),
      lookupField_mapInsert_ne _ _ (lbKey_ne_tdKey p)]
  · unfold finishProcess
    rw [lookupField_mapInsert_ne _ _ (ipKey_ne_svcKey p),
      lookupField_mapInsert_ne _ _ (ipKey_ne_tdKey p)]
  · unfold finishProcess
    exact lookupField_mapInsert_self _ _ _

/-- Witness for C7: the unexposed `worker-1` process contributes only its
task definition and service, and its service has no attachments. -/
theorem C7_witness :
    buildProcess tZone appCollide [] workerDash =
      some (finishProcess tZone [] workerDash [] []
        (tZone.ContainerDefinition workerDash)) ∧
    lookupField (finishProcess tZone [] workerDash [] []
      (tZone.ContainerDefinition workerDash)) (lbKey workerDash) =
      lookupField [] (lbKey workerDash) ∧
    getProp (serviceResource tZone workerDash (tdKey workerDash) [])
      "LoadBalancers" = some (.arr []) := by
  have h := C7_no_exposure_no_network_resources tZone appCollide [] workerDash rfl
  exact ⟨h.1, h.2.1, h.2.2.2.2.1⟩

/-- C9: the service declaration carries the service-level IAM role exactly
when its load-balancer attachment list is non-empty, which is exactly when
the process is exposed; for an unexposed process the `Role` key is absent
from the service properties. -/
theorem C9_role_iff_attachments (t : EmpireTemplate) (app : App)
    (res : List (String × Value)) (p : Process) (res' : List (String × Value))
    (h : buildProcess t app res p = some res') :
    lookupField res' (svcKey p) =
      some (serviceResource t p (tdKey p)
        (if p.exposure.isSome then [lbAttachment p.ptype (lbKey p)] else [])) ∧
    getProp (serviceResource t p (tdKey p)
        (if p.exposure.isSome then [lbAttachment p.ptype (lbKey p)] else []))
      "Role" =
      (if p.exposure.isSome then some (.str t.serviceRole) else none) ∧
    getProp (serviceResource t p (tdKey p)
        (if p.exposure.isSome then [lbAttachment p.ptype (lbKey p)] else []))
      "LoadBalancers" =
      some (.arr (if p.exposure.isSome
        then [lbAttachment p.ptype (lbKey p)] else [])) := by
  cases hexp : p.exposure with
  | none =>
    rw [buildProcess_unexposed t app res p hexp] at h
    cases h
    simp only [Option.isSome_none, Bool.false_eq_true, if_false]
    refine ⟨?_, rfl, rfl⟩
    unfold finishProcess
    exact lookupField_mapInsert_self _ _ _
  | some e =>
    simp only [Option.isSome_some, if_true]
    by_cases hw : p.ptype = "web"
    · cases hz : t.hostedZone with
      | none =>
        rw [buildProcess_web_nozone t app res p e hexp hw hz] at h
        cases h
      | some z =>
        rw [buildProcess_web_zone t app res p e z hexp hw hz] at h
        cases h
        refine ⟨?_, rfl, rfl⟩
        unfold finishProcess
        exact lookupField_mapInsert_self _ _ _
    · rw [buildProcess_exposed_nonweb t app res p e hexp hw] at h
      cases h
      refine ⟨?_, rfl, rfl⟩
      unfold finishProcess
      exact lookupField_mapInsert_self _ _ _

/-- The resources after one loop iteration for the exposed `web` process
of `appWeb`, used as a concrete witness value. -/
def resWebHTTP : List (String × Value) :=
  (buildProcess tZone appWeb [] webHTTP).getD []

/-- Witness for C9 at the exposed `web` process: the role is present. -/
theorem C9_witness :
    lookupField resWebHTTP (svcKey webHTTP) =
      some (serviceResource tZone webHTTP (tdKey webHTTP)
        [lbAttachment webHTTP.ptype (lbKey webHTTP)]) ∧
    getProp (serviceResource tZone webHTTP (tdKey webHTTP)
      [lbAttachment webHTTP.ptype (lbKey webHTTP)]) "Role" =
      some (.str tZone.serviceRole) := by
  have h := C9_role_iff_attachments tZone appWeb [] webHTTP resWebHTTP rfl
  exact ⟨h.1, h.2.1⟩

/-- C6: for a process exposed with the secure (certificate-carrying)
variant the emitted load balancer carries exactly two listeners, both with
load-balancer port 80 and both referencing the same deferred instance-port
attribute through an attribute lookup (never a literal), the second also
carrying the certificate; every non-secure variant yields exactly one such
listener. -/
theorem C6_https_gets_two_listeners (t : EmpireTemplate) (app : App)
    (res : List (String × Value)) (p : Process) (res' : List (String × Value))
    (e : Exposure) (h : buildProcess t app res p = some res')
    (hexp : p.exposure = some e) :
    lookupField res' (lbKey p) = some (exposedLBValue t p e) ∧
    (∀ cert, e.etype = .https cert →
      exposureListeners (ipKey p) e =
        [listenerValue (ipKey p), listenerValueSSL (ipKey p) cert]) ∧
    (e.etype = .http ∨ e.etype = .tcp →
      exposureListeners (ipKey p) e = [listenerValue (ipKey p)]) ∧
    (listenerValue (ipKey p)).getField "LoadBalancerPort" = some (.nat 80) ∧
    (listenerValue (ipKey p)).getField "InstancePort" =
      some (.getAtt (ipKey p) "InstancePort") ∧
    ∀ cert,
      (listenerValueSSL (ipKey p) cert).getField "LoadBalancerPort" =
        some (.nat 80) ∧
      (listenerValueSSL (ipKey p) cert).getField "InstancePort" =
        some (.getAtt (ipKey p) "InstancePort") ∧
      (listenerValueSSL (ipKey p) cert).getField "SSLCertificateId" =
        some (.str cert) := by
  have hlb : lookupField res' (lbKey p) = some (exposedLBValue t p e) := by
    by_cases hw : p.ptype = "web"
    · cases hz : t.hostedZone with
      | none =>
        rw [buildProcess_web_nozone t app res p e hexp hw hz] at h
        cases h
      | some z =>
        rw [buildProcess_web_zone t app res p e z hexp hw hz] at h
        cases h
        unfold finishProcess
        rw [lookupField_mapInsert_ne _ _ (lbKey_ne_svcKey p),
          lookupField_mapInsert_ne _ _ (lbKey_ne_tdKey p),
          lookupField_mapInsert_ne _ _ (lbKey_ne_cname p)]
        unfold exposedResources
        exact lookupField_mapInsert_self _ _ _
    · rw [buildProcess_exposed_nonweb t app res p e hexp hw] at h
      cases h
      unfold finishProcess
      rw [lookupField_mapInsert_ne _ _ (lbKey_ne_svcKey p),
        lookupField_mapInsert_ne _ _ (lbKey_ne_tdKey p)]
      unfold exposedResources
      exact lookupField_mapInsert_self _ _ _
  refine ⟨hlb, ?_, ?_, rfl, rfl, fun cert => ⟨rfl, rfl, rfl⟩⟩
  · intro cert hc
    unfold exposureListeners
    rw [hc]
  · intro hc
    unfold exposureListeners
    rcases hc with hc | hc <;> rw [hc]

/-- The secure variant of the `web` process, with certificate `certid`. -/
def webHTTPS : Process := { webHTTP with exposure := some ⟨true, .https "certid"⟩ }

/-- The application exposing `web` with a certificate. -/
def appWebHTTPS : App := ⟨"acme-inc", [webHTTPS]⟩

/-- The resources after one loop iteration for the secure `web` process. -/
def resWebHTTPS : List (String × Value) :=
  (buildProcess tZone appWebHTTPS [] webHTTPS).getD []

/-! Referential integrity. -/

theorem refsOk_mapInsert {m : List (String × Value)} {k : String} {v : Value}
    (hok : ∀ r ∈ resRefs m, r ∈ resKeys m)
    (hv : ∀ r ∈ v.refs, r ∈ resKeys (mapInsert m k v)) :
    ∀ r ∈ resRefs (mapInsert m k v), r ∈ resKeys (mapInsert m k v) := by
  intro r hr
  rcases mem_resRefs_mapInsert hr with hr | hr
  · exact mem_resKeys_mapInsert_of_mem _ _ (hok r hr)
  · exact hv r hr

theorem buildProcess_refsOk (t : EmpireTemplate) (app : App)
    (res : List (String × Value)) (p : Process) (res' : List (String × Value))
    (h : buildProcess t app res p = some res')
    (hok : ∀ r ∈ resRefs res, r ∈ resKeys res) :
    ∀ r ∈ resRefs res', r ∈ resKeys res' := by
  cases hexp : p.exposure with
  | none =>
    rw [buildProcess_unexposed t app res p hexp] at h
    cases h
    unfold finishProcess
    apply refsOk_mapInsert
    · apply refsOk_mapInsert hok
      intro r hr
      rw [refs_taskDefinitionResource] at hr
      simp [refsArr] at hr
    · intro r hr
      rw [refs_serviceResource] at hr
      simp only [refsArr, List.nil_append, List.mem_singleton] at hr
      subst hr
      exact mem_resKeys_mapInsert_of_mem _ _ (mem_resKeys_mapInsert_self _ _ _)
  | some e =>
    have hexpres : ∀ r ∈ resRefs (exposedResources t res p e),
        r ∈ resKeys (exposedResources t res p e) := by
      unfold exposedResources
      apply refsOk_mapInsert
      · apply refsOk_mapInsert hok
        intro r hr
        rw [refs_instancePortResource] at hr
        cases hr
      · intro r hr
        unfold exposedLBValue at hr
        rw [refs_loadBalancerResource] at hr
        rcases refs_exposureListeners (ipKey p) e with he | he <;>
          rw [he] at hr <;> simp at hr <;> subst hr <;>
          exact mem_resKeys_mapInsert_of_mem _ _ (mem_resKeys_mapInsert_self _ _ _)
    by_cases hw : p.ptype = "web"
    · cases hz : t.hostedZone with
      | none =>
        rw [buildProcess_web_nozone t app res p e hexp hw hz] at h
        cases h
      | some z =>
        rw [buildProcess_web_zone t app res p e z hexp hw hz] at h
        cases h
        unfold finishProcess
        apply refsOk_mapInsert
        · apply refsOk_mapInsert
          · apply refsOk_mapInsert hexpres
            intro r hr
            rw [refs_cnameResource] at hr
            simp at hr
            subst hr
            unfold exposedResources
            exact mem_resKeys_mapInsert_of_mem _ _ (mem_resKeys_mapInsert_self _ _ _)
          · intro r hr
            rw [refs_taskDefinitionResource] at hr
            simp [refsArr, refs_portMappingValue] at hr
            subst hr
            refine mem_resKeys_mapInsert_of_mem _ _ ?_
            refine mem_resKeys_mapInsert_of_mem _ _ ?_
            unfold exposedResources
            exact mem_resKeys_mapInsert_of_mem _ _ (mem_resKeys_mapInsert_self _ _ _)
        · intro r hr
          rw [refs_serviceResource] at hr
          simp [refsArr, refs_lbAttachment] at hr
          rcases hr with hr | hr <;> subst hr
          · refine mem_resKeys_mapInsert_of_mem _ _ ?_
            refine mem_resKeys_mapInsert_of_mem _ _ ?_
            refine mem_resKeys_mapInsert_of_mem _ _ ?_
            unfold exposedResources
            exact mem_resKeys_mapInsert_self _ _ _
          · exact mem_resKeys_mapInsert_of_mem _ _ (mem_resKeys_mapInsert_self _ _ _)
    · rw [buildProcess_exposed_nonweb t app res p e hexp hw] at h
      cases h
      unfold finishProcess
      apply refsOk_mapInsert
      · apply refsOk_mapInsert hexpres
        intro r hr
        rw [refs_taskDefinitionResource] at hr
        simp [refsArr, refs_portMappingValue] at hr
        subst hr
        refine mem_resKeys_mapInsert_of_mem _ _ ?_
        unfold exposedResources
        exact mem_resKeys_mapInsert_of_mem _ _ (mem_resKeys_mapInsert_self _ _ _)
      · intro r hr
        rw [refs_serviceResource] at hr
        simp [refsArr, refs_lbAttachment] at hr
        rcases hr with hr | hr <;> subst hr
        · refine mem_resKeys_mapInsert_of_mem _ _ ?_
          refine mem_resKeys_mapInsert_of_mem _ _ ?_
          unfold exposedResources
          exact mem_resKeys_mapInsert_self _ _ _
        · exact mem_resKeys_mapInsert_of_mem _ _ (mem_resKeys_mapInsert_self _ _ _)

theorem buildFold_refsOk (t : EmpireTemplate) (app : App) (ps : List Process) :
    ∀ res res' : List (String × Value),
      buildFold t app res ps = some res' →
      (∀ r ∈ resRefs res, r ∈ resKeys res) →
      ∀ r ∈ resRefs res', r ∈ resKeys res' := by
  induction ps with
  | nil =>
    intro res res' h hok
    cases h
    exact hok
  | cons p ps ih =>
    intro res res' h hok
    simp only [buildFold] at h
    cases hb : buildProcess t app res p with
    | none => rw [hb] at h; cases h
    | some mid =>
      rw [hb] at h
      exact ih mid res' h (buildProcess_refsOk t app res p mid hb hok)

/-- C4: referential integrity: in every document `Build` returns, every
direct reference (`Ref`) and every attribute lookup (`Fn::GetAtt`)
embedded anywhere in a resource's value names a logical id present as a
key of the returned `Resources` mapping. -/
theorem C4_referential_integrity (t : EmpireTemplate) (app : App)
    (doc : ResourceDoc) (h : t.Build app = .ok doc) :
    refsResolve doc.resources = true := by
  unfold EmpireTemplate.Build at h
  cases hb : buildFold t app [] app.processes with
  | none => rw [hb] at h; cases h
  | some res =>
    rw [hb] at h
    cases h
    unfold refsResolve
    rw [decide_eq_true_eq]
    refine buildFold_refsOk t app app.processes [] res hb ?_
    intro r hr
    cases hr

/-- A mixed application covering the secure, unexposed and TCP paths. -/
def tcpWorker : Process :=
  { workerDash with ptype := "worker-2", exposure := some ⟨false, .tcp⟩ }

/-- An application with a secure `web`, an unexposed worker and an
internal TCP worker. -/
def appMixed : App := ⟨"acme-inc", [webHTTPS, workerDash, tcpWorker]⟩

/-- Witness for C4 at the mixed application. -/
theorem C4_witness : refsResolve (tZone.Build appMixed).doc.resources = true :=
  C4_referential_integrity tZone appMixed (tZone.Build appMixed).doc rfl

/-! Determinism.  A Go map value carries no iteration order; two
association lists that are permutations of each other denote the same Go
map, so two `Process` values denote the same Go `scheduler.Process` when
all plain fields agree and their `env` and `labels` lists are
permutations of each other. -/

/-- Whether two embedded processes denote the same Go process value. -/
def Process.sameGoValue (p q : Process) : Prop :=
  p.ptype = q.ptype ∧ p.command = q.command ∧ p.image = q.image ∧
  p.cpuShares = q.cpuShares ∧ p.memoryLimit = q.memoryLimit ∧
  p.instances = q.instances ∧ p.nproc = q.nproc ∧ p.exposure = q.exposure ∧
  p.env.Perm q.env ∧ p.labels.Perm q.labels

/-- Whether two embedded applications denote the same Go application
value (process slices are ordered). -/
def App.sameGoValue (a b : App) : Prop :=
  a.name = b.name ∧ List.Forall₂ Process.sameGoValue a.processes b.processes

/-- Total lexicographic order on string pairs, used to canonicalize a
map's enumeration order. -/
def pairLe (a b : String × String) : Prop :=
  a.1 < b.1 ∨ (a.1 = b.1 ∧ a.2 ≤ b.2)

instance : DecidableRel pairLe := fun a b =>
  inferInstanceAs (Decidable (a.1 < b.1 ∨ (a.1 = b.1 ∧ a.2 ≤ b.2)))

instance : IsTotal (String × String) pairLe := ⟨by
  intro a b
  rcases lt_trichotomy a.1 b.1 with h | h | h
  · exact Or.inl (Or.inl h)
  · rcases le_total a.2 b.2 with h2 | h2
    · exact Or.inl (Or.inr ⟨h, h2⟩)
    · exact Or.inr (Or.inr ⟨h.symm, h2⟩)
  · exact Or.inr (Or.inl h)⟩

instance : IsTrans (String × String) pairLe := ⟨by
  rintro a b c (h1 | ⟨h1, h1s⟩) (h2 | ⟨h2, h2s⟩)
  · exact Or.inl (h1.trans h2)
  · exact Or.inl (h2 ▸ h1)
  · exact Or.inl (h1 ▸ h2)
  · exact Or.inr ⟨h1.trans h2, h1s.trans h2s⟩⟩

instance : IsAntisymm (String × String) pairLe := ⟨by
  rintro a b (h1 | ⟨h1, h1s⟩) (h2 | ⟨h2, h2s⟩)
  · exact absurd h2 (lt_asymm h1)
  · exact absurd h1 (h2 ▸ lt_irrefl _)
  · exact absurd h2 (h1 ▸ lt_irrefl _)
  · exact Prod.ext h1 (le_antisymm h1s h2s)⟩

/-- Canonical (sorted) enumeration order of a string-pair map. -/
def canonPairs (l : List (String × String)) : List (String × String) :=
  l.insertionSort pairLe

theorem canonPairs_eq_of_perm {l₁ l₂ : List (String × String)}
    (h : l₁.Perm l₂) : canonPairs l₁ = canonPairs l₂ :=
  List.eq_of_perm_of_sorted
    ((List.perm_insertionSort pairLe l₁).trans
      (h.trans (List.perm_insertionSort pairLe l₂).symm))
    (List.sorted_insertionSort pairLe l₁)
    (List.sorted_insertionSort pairLe l₂)

/-- A process with its `env` and `labels` enumeration orders
canonicalized. -/
def canonProcess (p : Process) : Process :=
  { p with env := canonPairs p.env, labels := canonPairs p.labels }

/-- An application with every process's map enumeration orders
canonicalized. -/
def canonApp (a : App) : App := ⟨a.name, a.processes.map canonProcess⟩

theorem canonProcess_eq {p q : Process} (h : Process.sameGoValue p q) :
    canonProcess p = canonProcess q := by
  obtain ⟨h1, h2, h3, h4, h5, h6, h7, h8, h9, h10⟩ := h
  cases p
  cases q
  simp only at h1 h2 h3 h4 h5 h6 h7 h8 h9 h10
  subst h1 h2 h3 h4 h5 h6 h7 h8
  simp only [canonProcess, canonPairs_eq_of_perm h9, canonPairs_eq_of_perm h10]

theorem canonProcess_map_eq {l₁ l₂ : List Process}
    (h : List.Forall₂ Process.sameGoValue l₁ l₂) :
    l₁.map canonProcess = l₂.map canonProcess := by
  induction h with
  | nil => rfl
  | cons hpq _ ih => simp [canonProcess_eq hpq, ih]

theorem canonApp_eq {a b : App} (h : App.sameGoValue a b) :
    canonApp a = canonApp b := by
  obtain ⟨h1, h2⟩ := h
  unfold canonApp
  rw [h1, canonProcess_map_eq h2]

/-- Project a value out of an array node. -/
def Value.item : Value → Nat → Option Value
  | .arr vs, i => vs.get? i
  | _, _ => none

/-- Project the string out of a string node. -/
def Value.asStr : Value → Option String
  | .str s => some s
  | _ => none

/-- The name of the first entry of the environment list of the (single)
container definition of the task definition at logical id `td`: the
observation that separates two builds of the same Go application. -/
def firstEnvName (doc : ResourceDoc) (td : String) : Option String :=
  (((((((lookupField doc.resources td).bind
    (fun v => getProp v "ContainerDefinitions")).bind
    (fun v => v.item 0)).bind
    (fun v => v.getField "Environment")).bind
    (fun v => v.item 0)).bind
    (fun v => v.getField "Name")).bind Value.asStr)

/-- An unexposed process with a two-entry environment map, enumerated in
one order. -/
def envProcA : Process :=
  { workerDash with ptype := "envproc", env := [("A", "1"), ("B", "2")] }

/-- The same Go process value with the other enumeration order of the
same environment map. -/
def envProcB : Process := { envProcA with env := [("B", "2"), ("A", "1")] }

/-- The application holding `envProcA`. -/
def appEnvA : App := ⟨"acme-inc", [envProcA]⟩

/-- The application holding `envProcB`: the identical Go application
value, enumerated differently. -/
def appEnvB : App := ⟨"acme-inc", [envProcB]⟩

/-- `appEnvA` and `appEnvB` denote the identical Go application value. -/
theorem appEnv_sameGoValue : App.sameGoValue appEnvA appEnvB := by
  refine ⟨rfl, List.Forall₂.cons ?_ List.Forall₂.nil⟩
  exact ⟨rfl, rfl, rfl, rfl, rfl, rfl, rfl, rfl,
    List.Perm.swap _ _ _, List.Perm.refl _⟩

/-- C3 counterexample: `appEnvA` and `appEnvB` are the identical Go
`Application` value (the environment is a map; its enumeration order is
not part of the value), yet the two builds differ, and they differ in the
ordered content of the container's environment list — the very node the
claim requires to be identical — not in any key ordering. -/
theorem C3_counterexample_env_order :
    App.sameGoValue appEnvA appEnvB ∧
    firstEnvName (tZone.Build appEnvA).doc "envprocTaskDefinition" = some "A" ∧
    firstEnvName (tZone.Build appEnvB).doc "envprocTaskDefinition" = some "B" ∧
    tZone.Build appEnvA ≠ tZone.Build appEnvB := by
  refine ⟨appEnv_sameGoValue, rfl, rfl, ?_⟩
  intro h
  have h2 : firstEnvName (tZone.Build appEnvA).doc "envprocTaskDefinition" =
      firstEnvName (tZone.Build appEnvB).doc "envprocTaskDefinition" := by
    rw [h]
  exact absurd h2 (by decide)

/-- C3 (amended): `Build` is deterministic in the Application value
together with the enumeration order of each process's environment and
label maps: once those enumeration orders are canonicalized (sorted),
two builds from the same Go application value produce identical
documents; without that canonicalization the ordered content of a
container's environment list can differ between two builds (the
implementation does not sort it). -/
theorem C3_deterministic_after_canonicalization (t : EmpireTemplate)
    (a b : App) (h : App.sameGoValue a b) :
    t.Build (canonApp a) = t.Build (canonApp b) := by
  rw [canonApp_eq h]

/-- Witness for the amended C3 theorem at the reordered-environment
applications. -/
theorem C3_witness :
    tZone.Build (canonApp appEnvA) = tZone.Build (canonApp appEnvB) :=
  C3_deterministic_after_canonicalization tZone appEnvA appEnvB
    appEnv_sameGoValue

/-! The DNS record.  The record is stored under the fixed logical id
`CNAME`; the lemmas below track, across the loop, that the entry at that
id is the only possible DNS record and what it contains. -/

/-- Every DNS-record resource of the mapping sits at the fixed logical id
`CNAME`. -/
def OnlyCnameRecordSets (m : List (String × Value)) : Prop :=
  ∀ kv ∈ m, isRecordSet kv.2 = true → kv.1 = "CNAME"

theorem mem_mapInsert {m : List (String × Value)} {k : String} {v : Value}
    {kv : String × Value} (h : kv ∈ mapInsert m k v) : kv ∈ m ∨ kv = (k, v) := by
  unfold mapInsert at h
  split at h
  · rcases List.mem_map.mp h with ⟨kv0, hkv0, heq⟩
    by_cases hk : kv0.1 = k
    · rw [if_pos hk] at heq
      exact Or.inr heq.symm
    · rw [if_neg hk] at heq
      exact Or.inl (heq ▸ hkv0)
  · rcases List.mem_append.mp h with h | h
    · exact Or.inl h
    · exact Or.inr (List.mem_singleton.mp h)

theorem isRecordSet_instancePort (t : EmpireTemplate) :
    isRecordSet (instancePortResource t) = false := rfl

theorem isRecordSet_loadBalancer (sch sg : String) (subs : List String)
    (ls : List Value) (pt : String) :
    isRecordSet (loadBalancerResource sch sg subs ls pt) = false := rfl

theorem isRecordSet_taskDefinition (cd : ContainerDefn) (pm : List Value) :
    isRecordSet (taskDefinitionResource cd pm) = false := rfl

theorem isRecordSet_service (t : EmpireTemplate) (p : Process) (td : String)
    (lbs : List Value) : isRecordSet (serviceResource t p td lbs) = false := rfl

theorem isRecordSet_cname (z : HostedZone) (n lb : String) :
    isRecordSet (cnameResource z n lb) = true := rfl

theorem lbKey_web (p : Process) (hw : p.ptype = "web") :
    lbKey p = "webLoadBalancer" := by
  unfold lbKey
  rw [hw]
  decide

theorem buildProcess_cname (t : EmpireTemplate) (app : App)
    (res mid : List (String × Value)) (p : Process)
    (h : buildProcess t app res p = some mid)
    (hk : normalizeKey p.ptype ≠ "CNAME") :
    (OnlyCnameRecordSets res → OnlyCnameRecordSets mid) ∧
    (¬(p.ptype = "web" ∧ p.exposure.isSome = true) →
      lookupField mid "CNAME" = lookupField res "CNAME") ∧
    (p.ptype = "web" → p.exposure.isSome = true →
      ∃ z, t.hostedZone = some z ∧
        lookupField mid "CNAME" =
          some (cnameResource z app.name "webLoadBalancer")) := by
  have hsvc : svcKey p ≠ "CNAME" := hk
  cases hexp : p.exposure with
  | none =>
    rw [buildProcess_unexposed t app res p hexp] at h
    cases h
    refine ⟨?_, ?_, ?_⟩
    · intro honly kv hkv hrs
      unfold finishProcess at hkv
      rcases mem_mapInsert hkv with hkv | hkv
      · rcases mem_mapInsert hkv with hkv | hkv
        · exact honly kv hkv hrs
        · simp [hkv, isRecordSet_taskDefinition] at hrs
      · simp [hkv, isRecordSet_service] at hrs
    · intro _
      unfold finishProcess
      rw [lookupField_mapInsert_ne _ _ (Ne.symm hsvc),
        lookupField_mapInsert_ne _ _ (Ne.symm (tdKey_ne_cname p))]
    · intro _ he
      simp at he
  | some e =>
    by_cases hw : p.ptype = "web"
    · cases hz : t.hostedZone with
      | none =>
        rw [buildProcess_web_nozone t app res p e hexp hw hz] at h
        cases h
      | some z =>
        rw [buildProcess_web_zone t app res p e z hexp hw hz] at h
        cases h
        refine ⟨?_, ?_, ?_⟩
        · intro honly kv hkv hrs
          unfold finishProcess at hkv
          rcases mem_mapInsert hkv with hkv | hkv
          · rcases mem_mapInsert hkv with hkv | hkv
            · rcases mem_mapInsert hkv with hkv | hkv
              · unfold exposedResources at hkv
                rcases mem_mapInsert hkv with hkv | hkv
                · rcases mem_mapInsert hkv with hkv | hkv
                  · exact honly kv hkv hrs
                  · simp [hkv, isRecordSet_instancePort] at hrs
                · simp [hkv, exposedLBValue, isRecordSet_loadBalancer] at hrs
              · simp [hkv]
            · simp [hkv, isRecordSet_taskDefinition] at hrs
          · simp [hkv, isRecordSet_service] at hrs
        · intro hcon
          exact absurd ⟨hw, rfl⟩ hcon
        · intro _ _
          refine ⟨z, rfl, ?_⟩
          unfold finishProcess
          rw [lookupField_mapInsert_ne _ _ (Ne.symm hsvc),
            lookupField_mapInsert_ne _ _ (Ne.symm (tdKey_ne_cname p)),
            lookupField_mapInsert_self, lbKey_web p hw]
    · rw [buildProcess_exposed_nonweb t app res p e hexp hw] at h
      cases h
      refine ⟨?_, ?_, ?_⟩
      · intro honly kv hkv hrs
        unfold finishProcess at hkv
        rcases mem_mapInsert hkv with hkv | hkv
        · rcases mem_mapInsert hkv with hkv | hkv
          · unfold exposedResources at hkv
            rcases mem_mapInsert hkv with hkv | hkv
            · rcases mem_mapInsert hkv with hkv | hkv
              · exact honly kv hkv hrs
              · simp [hkv, isRecordSet_instancePort] at hrs
            · simp [hkv, exposedLBValue, isRecordSet_loadBalancer] at hrs
          · simp [hkv, isRecordSet_taskDefinition] at hrs
        · simp [hkv, isRecordSet_service] at hrs
      · intro _
        unfold finishProcess exposedResources
        rw [lookupField_mapInsert_ne _ _ (Ne.symm hsvc),
          lookupField_mapInsert_ne _ _ (Ne.symm (tdKey_ne_cname p)),
          lookupField_mapInsert_ne _ _ (Ne.symm (lbKey_ne_cname p)),
          lookupField_mapInsert_ne _ _ (Ne.symm (ipKey_ne_cname p))]
      · intro hw2 _
        exact absurd hw2 hw

theorem buildProcess_nodup (t : EmpireTemplate) (app : App)
    (res mid : List (String × Value)) (p : Process)
    (h : buildProcess t app res p = some mid)
    (hnd : (resKeys res).Nodup) : (resKeys mid).Nodup := by
  cases hexp : p.exposure with
  | none =>
    rw [buildProcess_unexposed t app res p hexp] at h
    cases h
    unfold finishProcess
    exact nodup_resKeys_mapInsert _ _ (nodup_resKeys_mapInsert _ _ hnd)
  | some e =>
    by_cases hw : p.ptype = "web"
    · cases hz : t.hostedZone with
      | none =>
        rw [buildProcess_web_nozone t app res p e hexp hw hz] at h
        cases h
      | some z =>
        rw [buildProcess_web_zone t app res p e z hexp hw hz] at h
        cases h
        unfold finishProcess exposedResources
        exact nodup_resKeys_mapInsert _ _ (nodup_resKeys_mapInsert _ _
          (nodup_resKeys_mapInsert _ _ (nodup_resKeys_mapInsert _ _
            (nodup_resKeys_mapInsert _ _ hnd))))
    · rw [buildProcess_exposed_nonweb t app res p e hexp hw] at h
      cases h
      unfold finishProcess exposedResources
      exact nodup_resKeys_mapInsert _ _ (nodup_resKeys_mapInsert _ _
        (nodup_resKeys_mapInsert _ _ (nodup_resKeys_mapInsert _ _ hnd)))

theorem buildFold_nodup (t : EmpireTemplate) (app : App) (ps : List Process) :
    ∀ res res', buildFold t app res ps = some res' →
      (resKeys res).Nodup → (resKeys res').Nodup := by
  induction ps with
  | nil =>
    intro res res' h hnd
    cases h
    exact hnd
  | cons p ps ih =>
    intro res res' h hnd
    simp only [buildFold] at h
    cases hb : buildProcess t app res p with
    | none => rw [hb] at h; cases h
    | some mid =>
      rw [hb] at h
      exact ih mid res' h (buildProcess_nodup t app res mid p hb hnd)

theorem not_mem_resKeys_of_lookupField_none {m : List (String × Value)}
    {k : String} (h : lookupField m k = none) : k ∉ resKeys m := by
  induction m with
  | nil => simp [resKeys]
  | cons kv rest ih =>
    rw [lookupField_cons] at h
    split at h
    · cases h
    · next hne =>
      intro hmem
      simp only [resKeys, List.map_cons, List.mem_cons] at hmem
      rcases hmem with hmem | hmem
      · exact hne hmem.symm
      · exact ih h hmem

theorem recordSetCount_eq_zero {m : List (String × Value)}
    (h : ∀ kv ∈ m, isRecordSet kv.2 = false) : recordSetCount m = 0 := by
  unfold recordSetCount
  rw [List.length_eq_zero, List.filter_eq_nil_iff]
  intro kv hkv
  simp [h kv hkv]

theorem recordSetCount_eq_one :
    ∀ (m : List (String × Value)) (v : Value),
      (resKeys m).Nodup → lookupField m "CNAME" = some v →
      isRecordSet v = true → OnlyCnameRecordSets m → recordSetCount m = 1 := by
  intro m
  induction m with
  | nil =>
    intro v _ hlk
    cases hlk
  | cons kv rest ih =>
    intro v hnd hlk hv honly
    rw [lookupField_cons] at hlk
    simp only [resKeys, List.map_cons, List.nodup_cons] at hnd
    by_cases hk : kv.1 = "CNAME"
    · rw [if_pos hk] at hlk
      have hrs : isRecordSet kv.2 = true := by
        rw [Option.some.inj hlk]
        exact hv
      have hrest0 : recordSetCount rest = 0 := by
        apply recordSetCount_eq_zero
        intro kv2 hkv2m
        by_contra hb
        rw [Bool.not_eq_false] at hb
        have h2 := honly kv2 (List.mem_cons_of_mem _ hkv2m) hb
        refine hnd.1 ?_
        rw [hk, ← h2]
        exact List.mem_map_of_mem Prod.fst hkv2m
      unfold recordSetCount at hrest0 ⊢
      simp [List.filter_cons, hrs, hrest0]
    · rw [if_neg hk] at hlk
      have hhead : isRecordSet kv.2 = false := by
        by_contra hb
        rw [Bool.not_eq_false] at hb
        exact hk (honly kv (List.mem_cons_self _ _) hb)
      have hrest := ih v hnd.2 hlk hv
        fun kv2 hkv2 => honly kv2 (List.mem_cons_of_mem _ hkv2)
      unfold recordSetCount at hrest ⊢
      simp [List.filter_cons, hhead, hrest]

/-- Whether some process in the list is named `web` and is exposed. -/
def anyExposedWeb (ps : List Process) : Bool :=
  ps.any fun p => decide (p.ptype = "web") && p.exposure.isSome

theorem anyExposedWeb_cons (p : Process) (ps : List Process) :
    anyExposedWeb (p :: ps) =
      ((decide (p.ptype = "web") && p.exposure.isSome) || anyExposedWeb ps) := rfl

theorem buildFold_cname (t : EmpireTemplate) (app : App) (ps : List Process) :
    ∀ res res', buildFold t app res ps = some res' →
      (∀ p ∈ ps, normalizeKey p.ptype ≠ "CNAME") →
      (OnlyCnameRecordSets res → OnlyCnameRecordSets res') ∧
      (anyExposedWeb ps = false →
        lookupField res' "CNAME" = lookupField res "CNAME") ∧
      (anyExposedWeb ps = true →
        ∃ z, t.hostedZone = some z ∧
          lookupField res' "CNAME" =
            some (cnameResource z app.name "webLoadBalancer")) := by
  induction ps with
  | nil =>
    intro res res' h _
    cases h
    exact ⟨id, fun _ => rfl, fun hc => by simp [anyExposedWeb] at hc⟩
  | cons p ps ih =>
    intro res res' h hnc
    simp only [buildFold] at h
    cases hb : buildProcess t app res p with
    | none => rw [hb] at h; cases h
    | some mid =>
      rw [hb] at h
      have hp := buildProcess_cname t app res mid p hb
        (hnc p (List.mem_cons_self _ _))
      have hf := ih mid res' h fun q hq => hnc q (List.mem_cons_of_mem _ hq)
      refine ⟨fun ho => hf.1 (hp.1 ho), ?_, ?_⟩
      · intro hfalse
        rw [anyExposedWeb_cons, Bool.or_eq_false_iff] at hfalse
        rw [hf.2.1 hfalse.2]
        refine hp.2.1 ?_
        rintro ⟨hw, he⟩
        rw [decide_eq_true hw, he] at hfalse
        cases hfalse.1
      · intro htrue
        rw [anyExposedWeb_cons, Bool.or_eq_true] at htrue
        rcases htrue with hphere | hrest
        · rw [Bool.and_eq_true] at hphere
          obtain ⟨z, hz, hmid⟩ := hp.2.2 (of_decide_eq_true hphere.1) hphere.2
          by_cases hrest2 : anyExposedWeb ps = true
          · exact hf.2.2 hrest2
          · rw [Bool.not_eq_true] at hrest2
            exact ⟨z, hz, by rw [hf.2.1 hrest2, hmid]⟩
        · exact hf.2.2 hrest

/-- An unexposed process whose type name normalizes to the record's
reserved logical id `CNAME`. -/
def cnameShadow : Process := { workerDash with ptype := "C.N.A.M.E" }

/-- An application whose exposed `web` process is followed by a process
normalizing to `CNAME`. -/
def appShadow : App := ⟨"acme-inc", [webHTTP, cnameShadow]⟩

/-- C5 counterexample: in the application `[web (exposed), "C.N.A.M.E"]`
the second process normalizes to the reserved logical id `CNAME`, so its
service resource silently overwrites the DNS record the exposed `web`
process emitted: `Build` succeeds but the built graph contains zero DNS
records even though a process named `web` is exposed — refuting the
claimed if-and-only-if. -/
theorem C5_counterexample_shadowed_record :
    webHTTP.ptype = "web" ∧ webHTTP.exposure.isSome = true ∧
    webHTTP ∈ appShadow.processes ∧
    (tZone.Build appShadow).isOk = true ∧
    recordSetCount (tZone.Build appShadow).doc.resources = 0 :=
  ⟨rfl, rfl, List.mem_cons_self _ _, rfl, rfl⟩

/-- C5 (amended): provided no process's normalized identifier equals the
record's reserved logical id `CNAME`, a successful build contains a DNS
record if and only if some process is named `web` and is exposed; in that
case the hosted zone was configured and exactly one DNS record exists —
the value `cnameResource z app.name "webLoadBalancer"`, i.e. name
`{app name}.{zone name}`, type CNAME, TTL 60, referencing the `web`
process's load balancer; with no exposed `web` process the graph has zero
DNS records. -/
theorem C5_only_primary_dns (t : EmpireTemplate) (app : App)
    (doc : ResourceDoc) (hok : t.Build app = .ok doc)
    (hnc : ∀ p ∈ app.processes, normalizeKey p.ptype ≠ "CNAME") :
    (anyExposedWeb app.processes = true →
      t.hostedZone.isSome = true ∧
      lookupField doc.resources "CNAME" =
        t.hostedZone.map (fun z => cnameResource z app.name "webLoadBalancer") ∧
      recordSetCount doc.resources = 1) ∧
    (anyExposedWeb app.processes = false →
      recordSetCount doc.resources = 0) := by
  unfold EmpireTemplate.Build at hok
  cases hb : buildFold t app [] app.processes with
  | none => rw [hb] at hok; cases hok
  | some res =>
    rw [hb] at hok
    cases hok
    have hfold := buildFold_cname t app app.processes [] res hb hnc
    have hnd : (resKeys res).Nodup :=
      buildFold_nodup t app app.processes [] res hb (by simp [resKeys])
    have honly : OnlyCnameRecordSets res := hfold.1 fun kv hkv => by cases hkv
    constructor
    · intro hweb
      obtain ⟨z, hz, hlk⟩ := hfold.2.2 hweb
      refine ⟨by rw [hz]; rfl, by rw [hz]; exact hlk, ?_⟩
      exact recordSetCount_eq_one res _ hnd hlk
        (isRecordSet_cname z app.name "webLoadBalancer") honly
    · intro hnoweb
      have hlk : lookupField res "CNAME" = none := by
        rw [hfold.2.1 hnoweb]
        rfl
      apply recordSetCount_eq_zero
      intro kv hkv
      by_contra hbne
      rw [Bool.not_eq_false] at hbne
      have hkey := honly kv hkv hbne
      refine not_mem_resKeys_of_lookupField_none hlk ?_
      rw [← hkey]
      exact List.mem_map_of_mem Prod.fst hkv

/-- Witness for the amended C5 theorem: the `acme-inc` application with
its exposed `web` process yields exactly one DNS record, held at `CNAME`
with the hosted-zone name joined to the application name. -/
theorem C5_witness :
    tZone.hostedZone.isSome = true ∧
    lookupField (tZone.Build appWeb).doc.resources "CNAME" =
      tZone.hostedZone.map
        (fun z => cnameResource z appWeb.name "webLoadBalancer") ∧
    recordSetCount (tZone.Build appWeb).doc.resources = 1 :=
  (C5_only_primary_dns tZone appWeb (tZone.Build appWeb).doc rfl
    (by decide)).1 rfl

/-- Witness for C6 at the secure `web` process: its load balancer holds
exactly the two listeners. -/
theorem C6_witness :
    lookupField resWebHTTPS (lbKey webHTTPS) =
      some (exposedLBValue tZone webHTTPS ⟨true, .https "certid"⟩) ∧
    exposureListeners (ipKey webHTTPS) ⟨true, .https "certid"⟩ =
      [listenerValue (ipKey webHTTPS), listenerValueSSL (ipKey webHTTPS) "certid"] := by
  have h := C6_https_gets_two_listeners tZone appWebHTTPS [] webHTTPS resWebHTTPS
    ⟨true, .https "certid"⟩ rfl rfl
  exact ⟨h.1, h.2.1 "certid" rfl⟩

end Empire
